import Mathlib

/-
Verification of the haya ledger core (Go package `ledger`).

The Go source is shallowly embedded below:
  - `uuid.UUID` values are modelled as natural numbers (zero UUID = 0);
  - `time.Time` values are modelled as integers (zero time = 0);
  - Go `error` values are modelled as `Option String` (`none` = nil,
    `some msg` = `errors.New(msg)`);
  - Go `int` amounts are `Int` values; Go `int` is 64-bit and its
    addition wraps, so each summation loop is embedded twice: a faithful
    variant (suffix `64`) in which every addition is reduced mod 2^64
    into [-2^63, 2^63) by `wrap64`, and an idealized variant in
    unbounded ℤ. Claims whose truth is sensitive to wrap-around are
    settled against the faithful `64` variants;
  - the `Storage` collaborator's `SaveTransaction` is modelled as an
    arbitrary pure function from a transaction to the error it reports,
    and `Ledger.AddTransaction` additionally returns the list of
    transactions it passed to `SaveTransaction`, in call order, so that
    "storage was not invoked" is expressible as that list being empty.
-/

namespace Haya

/-- Account identifiers (`uuid.UUID` in the Go source). -/
abbrev UUID := Nat

/-- Time instants (`time.Time` in the Go source). -/
abbrev Time := Int

/-- `Entry` from the Go source: one signed amount applied to one account. -/
structure Entry where
  Account : UUID
  Amount : Int
deriving DecidableEq

/-- `TransactionType` from the Go source: Regular or Closing. -/
inductive TransactionType where
  | Regular
  | Closing
deriving DecidableEq

/-- `Transaction` from the Go source: entries, timestamp, type tag. -/
structure Transaction where
  Entries : List Entry
  Timestamp : Time
  TransactionType : Haya.TransactionType
deriving DecidableEq

/-- `AccountBalance` from the Go source. The Go field `AccountType` is a
named string type, modelled as `String` (zero value `""`). -/
structure AccountBalance where
  AccountID : UUID
  AccountType : String
  Balance : Int
  Timestamp : Time
deriving DecidableEq

/-- `newTransaction` from the Go source: empty entry list, given timestamp
and type. -/
def newTransaction (timestamp : Time) (t_type : TransactionType) : Transaction :=
  { Entries := [], Timestamp := timestamp, TransactionType := t_type }

/-- `NewRegularTransaction` from the Go source. -/
def NewRegularTransaction (timestamp : Time) : Transaction :=
  newTransaction timestamp TransactionType.Regular

/-- `NewTransaction` from the Go source: same as `NewRegularTransaction`. -/
def NewTransaction (timestamp : Time) : Transaction :=
  NewRegularTransaction timestamp

/-- `NewClosingTransaction` from the Go source. -/
def NewClosingTransaction (timestamp : Time) : Transaction :=
  newTransaction timestamp TransactionType.Closing

/-- `Transaction.IsBalanced` from the Go source (part_000 lines 117-139):
zero entries gives (true, error); one entry gives (false, error); otherwise
the amounts are summed by a loop and a nonzero sum gives (false, error),
a zero sum gives (true, nil). The summation here idealizes Go `int` as
unbounded ℤ; `Transaction.IsBalanced64` below is the exact wrapping
model. -/
def Transaction.IsBalanced (t : Transaction) : Bool × Option String :=
  if t.Entries.length = 0 then
    (true, some "transaction has no entries")
  else if t.Entries.length = 1 then
    (false, some "transaction has only one entry")
  else
    let sum := t.Entries.foldl (fun s entry => s + entry.Amount) 0
    if sum ≠ 0 then
      (false, some "transaction is unbalanced")
    else
      (true, none)

/-- `Transaction.TotalIncreases` from the Go source: loop accumulating the
amounts strictly greater than zero. The accumulation idealizes Go `int`
as unbounded ℤ; `Transaction.TotalIncreases64` below is the exact
wrapping model. -/
def Transaction.TotalIncreases (t : Transaction) : Int :=
  t.Entries.foldl (fun total entry => if entry.Amount > 0 then total + entry.Amount else total) 0

/-- `Transaction.TotalDecreases` from the Go source: loop accumulating the
amounts strictly less than zero. The accumulation idealizes Go `int`
as unbounded ℤ; `Transaction.TotalDecreases64` below is the exact
wrapping model. -/
def Transaction.TotalDecreases (t : Transaction) : Int :=
  t.Entries.foldl (fun total entry => if entry.Amount < 0 then total + entry.Amount else total) 0

/-- `Transaction.AddEntry` from the Go source: append one entry. -/
def Transaction.AddEntry (t : Transaction) (e : Entry) : Transaction :=
  { t with Entries := t.Entries ++ [e] }

/-- `Transaction.AddEntries` from the Go source: append a list of entries. -/
def Transaction.AddEntries (t : Transaction) (entries : List Entry) : Transaction :=
  { t with Entries := t.Entries ++ entries }

/-- `Ledger` from the Go source: holds one Storage collaborator, here its
`SaveTransaction` operation as a pure error-returning function. -/
structure Ledger where
  storage : Transaction → Option String

/-- `NewLedger` from the Go source. -/
def NewLedger (storage : Transaction → Option String) : Ledger :=
  { storage := storage }

/-- `Ledger.AddTransaction` from the Go source (part_000 lines 188-194):
if the balance check reports not balanced, return its error; otherwise
call `storage.SaveTransaction` and return its error. The second component
of the result records the transactions passed to `SaveTransaction`, in
call order. -/
def Ledger.AddTransaction (l : Ledger) (t : Transaction) : Option String × List Transaction :=
  let r := t.IsBalanced
  if !r.1 then
    (r.2, [])
  else
    (l.storage t, [t])

/-- `Ledger.getAccountBalance` from the Go source (part_000 lines 217-220):
discards every argument and returns the zero `AccountBalance` with nil
error. -/
def Ledger.getAccountBalance (l : Ledger) (accountID : UUID) (t : Time) (closed : Bool) :
    AccountBalance × Option String :=
  ({ AccountID := 0, AccountType := "", Balance := 0, Timestamp := 0 }, none)

/-- `Ledger.GetCurrentAccountBalance` from the Go source: the call to
`time.Now()` is modelled by the explicit `now` argument. -/
def Ledger.GetCurrentAccountBalance (l : Ledger) (now : Time) (accountID : UUID) (closed : Bool) :
    AccountBalance × Option String :=
  l.getAccountBalance accountID now closed

/-- `Ledger.GetAccountBalanceAt` from the Go source. -/
def Ledger.GetAccountBalanceAt (l : Ledger) (accountID : UUID) (t : Time) :
    AccountBalance × Option String :=
  l.getAccountBalance accountID t false

/-- `Ledger.GetAccountBalanceClosedAt` from the Go source. -/
def Ledger.GetAccountBalanceClosedAt (l : Ledger) (accountID : UUID) (t : Time) :
    AccountBalance × Option String :=
  l.getAccountBalance accountID t true

/-- Spec-side formulation: the sum of all entry amounts of a list. -/
def entryAmountSum (es : List Entry) : Int :=
  (es.map Entry.Amount).sum

/-- Spec-side formulation: the sum of the strictly positive entry amounts. -/
def posAmountSum (es : List Entry) : Int :=
  ((es.filter fun e => decide (0 < e.Amount)).map Entry.Amount).sum

/-- Spec-side formulation: the sum of the strictly negative entry amounts. -/
def negAmountSum (es : List Entry) : Int :=
  ((es.filter fun e => decide (e.Amount < 0)).map Entry.Amount).sum

/-- The smallest value of Go's 64-bit `int`: -2^63. -/
def int64MIN : Int := -9223372036854775808

/-- The largest value of Go's 64-bit `int`: 2^63 - 1. -/
def int64MAX : Int := 9223372036854775807

/-- Two's-complement reduction of an integer into the 64-bit `int` range
[-2^63, 2^63): the value congruent mod 2^64. Go's `int` addition wraps,
so `x + y` in Go is `wrap64 (x + y)` here. -/
def wrap64 (z : Int) : Int :=
  (z + 9223372036854775808) % 18446744073709551616 - 9223372036854775808

/-- `Transaction.IsBalanced` embedded under exact Go `int` semantics: the
same control flow and error strings as `IsBalanced` above, but the
summation loop `sum += entry.Amount` wraps at every step as 64-bit
addition does. This is the faithful model of the Go function; the
unbounded `IsBalanced` is its idealization in ℤ. -/
def Transaction.IsBalanced64 (t : Transaction) : Bool × Option String :=
  if t.Entries.length = 0 then
    (true, some "transaction has no entries")
  else if t.Entries.length = 1 then
    (false, some "transaction has only one entry")
  else
    let sum := t.Entries.foldl (fun s entry => wrap64 (s + entry.Amount)) 0
    if sum ≠ 0 then
      (false, some "transaction is unbalanced")
    else
      (true, none)

/-- `Transaction.TotalIncreases` embedded under exact Go `int` semantics:
the loop `total += entry.Amount` over the strictly positive amounts, with
each addition wrapping as 64-bit addition does. -/
def Transaction.TotalIncreases64 (t : Transaction) : Int :=
  t.Entries.foldl
    (fun total entry => if entry.Amount > 0 then wrap64 (total + entry.Amount) else total) 0

/-- `Transaction.TotalDecreases` embedded under exact Go `int` semantics:
the loop `total += entry.Amount` over the strictly negative amounts, with
each addition wrapping as 64-bit addition does. -/
def Transaction.TotalDecreases64 (t : Transaction) : Int :=
  t.Entries.foldl
    (fun total entry => if entry.Amount < 0 then wrap64 (total + entry.Amount) else total) 0

/-- The summation loop of `IsBalanced`, started from any accumulator,
computes the accumulator plus the sum of the amounts. -/
lemma foldl_add_amount (es : List Entry) (a : Int) :
    es.foldl (fun s entry => s + entry.Amount) a = a + entryAmountSum es := by
  induction es generalizing a with
  | nil => simp [entryAmountSum]
  | cons e es ih =>
      simp only [List.foldl_cons, ih, entryAmountSum, List.map_cons, List.sum_cons]
      ring

/-- The accumulation loop of `TotalIncreases`, started from any
accumulator, computes the accumulator plus the positive-amount sum. -/
lemma foldl_pos_amount (es : List Entry) (a : Int) :
    es.foldl (fun total entry => if entry.Amount > 0 then total + entry.Amount else total) a
      = a + posAmountSum es := by
  induction es generalizing a with
  | nil => simp [posAmountSum]
  | cons e es ih =>
      simp only [List.foldl_cons, ih, posAmountSum, List.filter_cons]
      by_cases h : 0 < e.Amount
      · simp [h]
        ring
      · simp [h]

/-- The accumulation loop of `TotalDecreases`, started from any
accumulator, computes the accumulator plus the negative-amount sum. -/
lemma foldl_neg_amount (es : List Entry) (a : Int) :
    es.foldl (fun total entry => if entry.Amount < 0 then total + entry.Amount else total) a
      = a + negAmountSum es := by
  induction es generalizing a with
  | nil => simp [negAmountSum]
  | cons e es ih =>
      simp only [List.foldl_cons, ih, negAmountSum, List.filter_cons]
      by_cases h : e.Amount < 0
      · simp [h]
        ring
      · simp [h]

/-- The positive-amount sum is nonnegative. -/
lemma posAmountSum_nonneg (es : List Entry) : 0 ≤ posAmountSum es := by
  induction es with
  | nil => simp [posAmountSum]
  | cons e es ih =>
      simp only [posAmountSum, List.filter_cons] at *
      by_cases h : 0 < e.Amount
      · simp only [h, decide_eq_true_eq, if_pos, List.map_cons, List.sum_cons]
        omega
      · simp only [h, decide_eq_true_eq, if_neg]
        exact ih

/-- The negative-amount sum is nonpositive. -/
lemma negAmountSum_nonpos (es : List Entry) : negAmountSum es ≤ 0 := by
  induction es with
  | nil => simp [negAmountSum]
  | cons e es ih =>
      simp only [negAmountSum, List.filter_cons] at *
      by_cases h : e.Amount < 0
      · simp only [h, decide_eq_true_eq, if_pos, List.map_cons, List.sum_cons]
        omega
      · simp only [h, decide_eq_true_eq, if_neg]
        exact ih

/-- The positive-amount sum and the negative-amount sum partition the
total: zero amounts contribute to neither side and to the total nothing. -/
lemma posAmountSum_add_negAmountSum (es : List Entry) :
    posAmountSum es + negAmountSum es = entryAmountSum es := by
  induction es with
  | nil => simp [posAmountSum, negAmountSum, entryAmountSum]
  | cons e es ih =>
      simp only [posAmountSum, negAmountSum, entryAmountSum, List.filter_cons,
        List.map_cons, List.sum_cons] at *
      rcases lt_trichotomy e.Amount 0 with h | h | h
      · have h1 : ¬ (0 < e.Amount) := by omega
        simp [h, h1]
        omega
      · have h1 : ¬ (0 < e.Amount) := by omega
        have h2 : ¬ (e.Amount < 0) := by omega
        simp [h1, h2]
        omega
      · have h2 : ¬ (e.Amount < 0) := by omega
        simp [h, h2]
        omega

/-- Reducing zero is the identity. -/
lemma wrap64_zero : wrap64 0 = 0 := by
  simp [wrap64]

/-- Reducing the left summand first does not change the reduced sum:
wrap64 is a homomorphism for addition mod 2^64. -/
lemma wrap64_wrap64_add (a b : Int) : wrap64 (wrap64 a + b) = wrap64 (a + b) := by
  simp only [wrap64]
  omega

/-- A value already inside the 64-bit range is fixed by the reduction. -/
lemma wrap64_eq_self (z : Int) (h1 : int64MIN ≤ z) (h2 : z ≤ int64MAX) : wrap64 z = z := by
  simp only [wrap64, int64MIN, int64MAX] at *
  omega

/-- The wrapping summation loop of `IsBalanced64`, started from a reduced
accumulator, computes the reduction of the accumulator plus the sum. -/
lemma foldl64_add_amount (es : List Entry) (a : Int) :
    es.foldl (fun s entry => wrap64 (s + entry.Amount)) (wrap64 a)
      = wrap64 (a + entryAmountSum es) := by
  induction es generalizing a with
  | nil => simp [entryAmountSum]
  | cons e es ih =>
      simp only [List.foldl_cons, wrap64_wrap64_add, ih, entryAmountSum, List.map_cons,
        List.sum_cons]
      congr 1
      ring

/-- The wrapping summation loop of `IsBalanced64`, started from 0,
computes the reduced sum of the amounts. -/
lemma foldl64_add_amount_zero (es : List Entry) :
    es.foldl (fun s entry => wrap64 (s + entry.Amount)) 0 = wrap64 (entryAmountSum es) := by
  simpa [wrap64_zero] using foldl64_add_amount es 0

/-- The wrapping accumulation loop of `TotalIncreases64`, started from a
reduced accumulator, computes the reduction of the accumulator plus the
positive-amount sum. -/
lemma foldl64_pos_amount (es : List Entry) (a : Int) :
    es.foldl
      (fun total entry => if entry.Amount > 0 then wrap64 (total + entry.Amount) else total)
      (wrap64 a) = wrap64 (a + posAmountSum es) := by
  induction es generalizing a with
  | nil => simp [posAmountSum]
  | cons e es ih =>
      simp only [List.foldl_cons]
      by_cases h : e.Amount > 0
      · rw [if_pos h, wrap64_wrap64_add, ih]
        have hc : posAmountSum (e :: es) = e.Amount + posAmountSum es := by
          simp [posAmountSum, List.filter_cons, h]
        rw [hc]
        congr 1
        ring
      · rw [if_neg h, ih]
        have hc : posAmountSum (e :: es) = posAmountSum es := by
          simp [posAmountSum, List.filter_cons, h]
        rw [hc]

/-- The wrapping accumulation loop of `TotalIncreases64`, started from 0,
computes the reduced positive-amount sum. -/
lemma foldl64_pos_amount_zero (es : List Entry) :
    es.foldl
      (fun total entry => if entry.Amount > 0 then wrap64 (total + entry.Amount) else total) 0
      = wrap64 (posAmountSum es) := by
  simpa [wrap64_zero] using foldl64_pos_amount es 0

/-- The wrapping accumulation loop of `TotalDecreases64`, started from a
reduced accumulator, computes the reduction of the accumulator plus the
negative-amount sum. -/
lemma foldl64_neg_amount (es : List Entry) (a : Int) :
    es.foldl
      (fun total entry => if entry.Amount < 0 then wrap64 (total + entry.Amount) else total)
      (wrap64 a) = wrap64 (a + negAmountSum es) := by
  induction es generalizing a with
  | nil => simp [negAmountSum]
  | cons e es ih =>
      simp only [List.foldl_cons]
      by_cases h : e.Amount < 0
      · rw [if_pos h, wrap64_wrap64_add, ih]
        have hc : negAmountSum (e :: es) = e.Amount + negAmountSum es := by
          simp [negAmountSum, List.filter_cons, h]
        rw [hc]
        congr 1
        ring
      · rw [if_neg h, ih]
        have hc : negAmountSum (e :: es) = negAmountSum es := by
          simp [negAmountSum, List.filter_cons, h]
        rw [hc]

/-- The wrapping accumulation loop of `TotalDecreases64`, started from 0,
computes the reduced negative-amount sum. -/
lemma foldl64_neg_amount_zero (es : List Entry) :
    es.foldl
      (fun total entry => if entry.Amount < 0 then wrap64 (total + entry.Amount) else total) 0
      = wrap64 (negAmountSum es) := by
  simpa [wrap64_zero] using foldl64_neg_amount es 0

/-- Counterexample for C1 as stated: under Go's wrapping 64-bit `int`
arithmetic the three entries MaxInt64, MaxInt64, 2 have nonzero
mathematical amount sum 2^64, yet the summation loop wraps to 0 and the
check reports (true, no error) instead of
(false, error "transaction is unbalanced"). -/
theorem isBalanced_policy_table_counterexample :
    2 ≤ (Transaction.mk [⟨1, int64MAX⟩, ⟨2, int64MAX⟩, ⟨3, 2⟩] 0
      TransactionType.Regular).Entries.length ∧
    entryAmountSum (Transaction.mk [⟨1, int64MAX⟩, ⟨2, int64MAX⟩, ⟨3, 2⟩] 0
      TransactionType.Regular).Entries ≠ 0 ∧
    (Transaction.mk [⟨1, int64MAX⟩, ⟨2, int64MAX⟩, ⟨3, 2⟩] 0
      TransactionType.Regular).IsBalanced64 = (true, none) := by
  refine ⟨by decide, by decide, by decide⟩

/-- C1 amended: IsBalanced follows the four-case policy table with the
amount sum taken in Go's wrapping 64-bit integer arithmetic: with 0
entries it returns (true, error "transaction has no entries"); with
exactly 1 entry (false, error "transaction has only one entry"); with 2
or more entries whose wrapped amount sum is 0 (true, no error); with 2
or more entries whose wrapped amount sum is nonzero (false, error
"transaction is unbalanced"). -/
theorem isBalanced64_policy_table (t : Transaction) :
    (t.Entries.length = 0 → t.IsBalanced64 = (true, some "transaction has no entries")) ∧
    (t.Entries.length = 1 → t.IsBalanced64 = (false, some "transaction has only one entry")) ∧
    (2 ≤ t.Entries.length → wrap64 (entryAmountSum t.Entries) = 0 →
      t.IsBalanced64 = (true, none)) ∧
    (2 ≤ t.Entries.length → wrap64 (entryAmountSum t.Entries) ≠ 0 →
      t.IsBalanced64 = (false, some "transaction is unbalanced")) := by
  refine ⟨fun h => ?_, fun h => ?_, fun h hs => ?_, fun h hs => ?_⟩
  · simp [Transaction.IsBalanced64, h]
  · simp [Transaction.IsBalanced64, h]
  · have h0 : ¬ t.Entries.length = 0 := by omega
    have h1 : ¬ t.Entries.length = 1 := by omega
    simp [Transaction.IsBalanced64, h0, h1, foldl64_add_amount_zero, hs]
  · have h0 : ¬ t.Entries.length = 0 := by omega
    have h1 : ¬ t.Entries.length = 1 := by omega
    simp [Transaction.IsBalanced64, h0, h1, foldl64_add_amount_zero, hs]

/-- Witness for C1 amended: a two-entry transaction with amounts 5 and -5
is reported balanced with no error. -/
theorem isBalanced64_policy_table_witness :
    (Transaction.mk [⟨1, 5⟩, ⟨2, -5⟩] 0 TransactionType.Regular).IsBalanced64 = (true, none) :=
  (isBalanced64_policy_table (Transaction.mk [⟨1, 5⟩, ⟨2, -5⟩] 0 TransactionType.Regular)).2.2.1
    (by decide) (by decide)

/-- C2: AddTransaction runs the balance check first; when the check says
unbalanced it returns that same error and records no SaveTransaction call;
when the check says balanced it passes the transaction to SaveTransaction
and returns exactly the error Storage reports. -/
theorem addTransaction_relays_check_and_storage (l : Ledger) (t : Transaction) :
    (t.IsBalanced.1 = false → l.AddTransaction t = (t.IsBalanced.2, [])) ∧
    (t.IsBalanced.1 = true → l.AddTransaction t = (l.storage t, [t])) := by
  constructor <;> intro h <;> simp [Ledger.AddTransaction, h]

/-- Witness for C2: on a one-entry transaction the ledger returns the
balance-check error and storage is never called. -/
theorem addTransaction_relays_check_and_storage_witness :
    (NewLedger fun _ => none).AddTransaction (Transaction.mk [⟨1, 3⟩] 0 TransactionType.Regular)
      = (some "transaction has only one entry", []) :=
  ((addTransaction_relays_check_and_storage (NewLedger fun _ => none)
    (Transaction.mk [⟨1, 3⟩] 0 TransactionType.Regular)).1 (by decide)).trans (by decide)

/-- C3: for every transaction, TotalIncreases plus TotalDecreases equals
the sum of all entry amounts. -/
theorem totalIncreases_add_totalDecreases (t : Transaction) :
    t.TotalIncreases + t.TotalDecreases = entryAmountSum t.Entries := by
  simp only [Transaction.TotalIncreases, Transaction.TotalDecreases,
    foldl_pos_amount, foldl_neg_amount, zero_add]
  exact posAmountSum_add_negAmountSum t.Entries

/-- C4: on a transaction with zero entries AddTransaction does not
fail fast: the balance check reports balanced, so the transaction is
forwarded to SaveTransaction, the check's "transaction has no entries"
error is discarded, and Storage's verdict is returned. -/
theorem addTransaction_empty_persists (l : Ledger) (t : Transaction) (h : t.Entries = []) :
    l.AddTransaction t = (l.storage t, [t]) := by
  simp [Ledger.AddTransaction, Transaction.IsBalanced, h]

/-- Witness for C4: an empty transaction reaches storage and the
storage error is what comes back. -/
theorem addTransaction_empty_persists_witness :
    (NewLedger fun _ => some "storage says no").AddTransaction
        (Transaction.mk [] 0 TransactionType.Regular)
      = (some "storage says no", [Transaction.mk [] 0 TransactionType.Regular]) :=
  addTransaction_empty_persists (NewLedger fun _ => some "storage says no")
    (Transaction.mk [] 0 TransactionType.Regular) rfl

/-- Counterexample for C5 as stated: under Go's wrapping 64-bit `int`
arithmetic TotalIncreases on two MaxInt64 entries wraps to -2, which is
negative, and TotalDecreases on entries MinInt64 and -1 wraps to
MaxInt64, which is positive, so the claim's unconditional sign bounds
fail on the program. -/
theorem totals_are_signed_sums_counterexample :
    (Transaction.mk [⟨1, int64MAX⟩, ⟨2, int64MAX⟩] 0
      TransactionType.Regular).TotalIncreases64 = -2 ∧
    (Transaction.mk [⟨1, int64MIN⟩, ⟨2, -1⟩] 0
      TransactionType.Regular).TotalDecreases64 = int64MAX ∧
    (-2 : Int) < 0 ∧ 0 < int64MAX := by
  refine ⟨by decide, by decide, by decide, by decide⟩

/-- C5 amended: TotalIncreases is the wrapping 64-bit sum of only the
strictly positive entry amounts and TotalDecreases is the wrapping
64-bit sum of only the strictly negative entry amounts (not an absolute
value); the sign bounds hold whenever the respective sum is
representable in 64 bits: TotalIncreases is nonnegative when the
positive-amount sum is at most MaxInt64, and TotalDecreases is
nonpositive when the negative-amount sum is at least MinInt64. -/
theorem totals64_are_wrapped_signed_sums (t : Transaction) :
    t.TotalIncreases64 = wrap64 (posAmountSum t.Entries) ∧
    t.TotalDecreases64 = wrap64 (negAmountSum t.Entries) ∧
    (posAmountSum t.Entries ≤ int64MAX → 0 ≤ t.TotalIncreases64) ∧
    (int64MIN ≤ negAmountSum t.Entries → t.TotalDecreases64 ≤ 0) := by
  have hi : t.TotalIncreases64 = wrap64 (posAmountSum t.Entries) := by
    simp [Transaction.TotalIncreases64, foldl64_pos_amount_zero]
  have hd : t.TotalDecreases64 = wrap64 (negAmountSum t.Entries) := by
    simp [Transaction.TotalDecreases64, foldl64_neg_amount_zero]
  refine ⟨hi, hd, fun h => ?_, fun h => ?_⟩
  · have hp := posAmountSum_nonneg t.Entries
    have hw : wrap64 (posAmountSum t.Entries) = posAmountSum t.Entries :=
      wrap64_eq_self (posAmountSum t.Entries) (le_trans (by decide) hp) h
    rw [hi, hw]
    exact hp
  · have hn := negAmountSum_nonpos t.Entries
    have hw : wrap64 (negAmountSum t.Entries) = negAmountSum t.Entries :=
      wrap64_eq_self (negAmountSum t.Entries) h (le_trans hn (by decide))
    rw [hd, hw]
    exact hn

/-- Witness for C5 amended: on entries with amounts 7 and -3 both signed
sums are representable, so the sign bounds apply and give 0 ≤ 7 and
-3 ≤ 0. -/
theorem totals64_are_wrapped_signed_sums_witness :
    0 ≤ (Transaction.mk [⟨1, 7⟩, ⟨2, -3⟩] 0 TransactionType.Regular).TotalIncreases64 ∧
    (Transaction.mk [⟨1, 7⟩, ⟨2, -3⟩] 0 TransactionType.Regular).TotalDecreases64 ≤ 0 :=
  ⟨(totals64_are_wrapped_signed_sums
      (Transaction.mk [⟨1, 7⟩, ⟨2, -3⟩] 0 TransactionType.Regular)).2.2.1 (by decide),
   (totals64_are_wrapped_signed_sums
      (Transaction.mk [⟨1, 7⟩, ⟨2, -3⟩] 0 TransactionType.Regular)).2.2.2 (by decide)⟩

/-- C6: IsBalanced is pure: its result is a function of the current entry
sequence alone (two transactions with the same entries get the same
verdict, so repeated calls without mutation agree and no verdict is
cached), it does not modify the transaction, and AddEntry makes the new
entry visible to the next check by appending it to the entry sequence. -/
theorem isBalanced_pure_recompute (t u : Transaction) (e : Entry) (h : t.Entries = u.Entries) :
    t.IsBalanced = u.IsBalanced ∧ (t.AddEntry e).Entries = t.Entries ++ [e] := by
  constructor
  · simp [Transaction.IsBalanced, h]
  · rfl

/-- Witness for C6: two transactions sharing an entry list but differing
in timestamp and type get the same verdict; AddEntry appends. -/
theorem isBalanced_pure_recompute_witness :
    (Transaction.mk [⟨1, 2⟩, ⟨2, -2⟩] 0 TransactionType.Regular).IsBalanced
      = (Transaction.mk [⟨1, 2⟩, ⟨2, -2⟩] 5 TransactionType.Closing).IsBalanced ∧
    ((Transaction.mk [⟨1, 2⟩, ⟨2, -2⟩] 0 TransactionType.Regular).AddEntry ⟨3, 7⟩).Entries
      = [⟨1, 2⟩, ⟨2, -2⟩] ++ [⟨3, 7⟩] :=
  isBalanced_pure_recompute (Transaction.mk [⟨1, 2⟩, ⟨2, -2⟩] 0 TransactionType.Regular)
    (Transaction.mk [⟨1, 2⟩, ⟨2, -2⟩] 5 TransactionType.Closing) ⟨3, 7⟩ rfl

/-- C7: permuting the entry sequence changes neither the boolean verdict
of IsBalanced nor the reported error: the check depends only on the entry
count and the commutative sum of the amounts. -/
theorem isBalanced_perm_invariant (t u : Transaction) (h : List.Perm t.Entries u.Entries) :
    t.IsBalanced = u.IsBalanced := by
  have hlen : t.Entries.length = u.Entries.length := h.length_eq
  have hsum : entryAmountSum t.Entries = entryAmountSum u.Entries := by
    simpa [entryAmountSum] using (h.map Entry.Amount).sum_eq
  simp only [Transaction.IsBalanced, foldl_add_amount, hlen, hsum]

/-- Witness for C7: swapping the two entries of a balanced transaction
leaves the verdict and the (absent) error unchanged. -/
theorem isBalanced_perm_invariant_witness :
    (Transaction.mk [⟨1, 4⟩, ⟨2, -4⟩] 0 TransactionType.Regular).IsBalanced
      = (Transaction.mk [⟨2, -4⟩, ⟨1, 4⟩] 0 TransactionType.Regular).IsBalanced :=
  isBalanced_perm_invariant (Transaction.mk [⟨1, 4⟩, ⟨2, -4⟩] 0 TransactionType.Regular)
    (Transaction.mk [⟨2, -4⟩, ⟨1, 4⟩] 0 TransactionType.Regular) (List.Perm.swap _ _ _)

/-- C8: the three balance queries are one general operation parameterized
by a cutoff time and the include-closed flag: GetCurrentAccountBalance
delegates the current timestamp to the time-parameterized variant,
GetAccountBalanceAt fixes closed to false and GetAccountBalanceClosedAt
fixes closed to true. -/
theorem balance_queries_share_general_op (l : Ledger) (now t : Time) (accountID : UUID)
    (closed : Bool) :
    l.GetCurrentAccountBalance now accountID closed = l.getAccountBalance accountID now closed ∧
    l.GetAccountBalanceAt accountID t = l.getAccountBalance accountID t false ∧
    l.GetAccountBalanceClosedAt accountID t = l.getAccountBalance accountID t true :=
  ⟨rfl, rfl, rfl⟩

/-- C9: the underlying balance computation is an unimplemented stub that
ignores every argument: all three public queries and the internal one
return the zero AccountBalance with no error. -/
theorem balance_queries_stubbed (l : Ledger) (now t : Time) (accountID : UUID) (closed : Bool) :
    l.getAccountBalance accountID t closed
        = ({ AccountID := 0, AccountType := "", Balance := 0, Timestamp := 0 }, none) ∧
    l.GetCurrentAccountBalance now accountID closed
        = ({ AccountID := 0, AccountType := "", Balance := 0, Timestamp := 0 }, none) ∧
    l.GetAccountBalanceAt accountID t
        = ({ AccountID := 0, AccountType := "", Balance := 0, Timestamp := 0 }, none) ∧
    l.GetAccountBalanceClosedAt accountID t
        = ({ AccountID := 0, AccountType := "", Balance := 0, Timestamp := 0 }, none) :=
  ⟨rfl, rfl, rfl, rfl⟩

/-- C10: AddEntries is equivalent to folding AddEntry over the entries in
order; it keeps the timestamp, the transaction type and the previously
added entries, and appends the new entries at the end in the given
order. -/
theorem addEntries_eq_repeated_addEntry (t : Transaction) (es : List Entry) :
    t.AddEntries es = es.foldl Transaction.AddEntry t ∧
    (t.AddEntries es).Timestamp = t.Timestamp ∧
    (t.AddEntries es).TransactionType = t.TransactionType ∧
    (t.AddEntries es).Entries = t.Entries ++ es := by
  refine ⟨?_, rfl, rfl, rfl⟩
  induction es generalizing t with
  | nil => simp [Transaction.AddEntries]
  | cons e es ih =>
      simp only [List.foldl_cons]
      rw [← ih]
      simp [Transaction.AddEntries, Transaction.AddEntry]

end Haya
